import Mathlib

/-!
Verification of the slog S3 web-access-log reader.

This file gives a shallow embedding of the Go packages `s3` (files
`core.go` and `session.go`) of the mikebway/slog repository, and proves
properties of the three-stage log-reading pipeline:

* `fetchLogObjectKeys`  - enumerates object keys inside the time window,
* `fetchLogObjectData`  - downloads each key's object into a buffer,
* `displayLogData` / `displaySelectLogData` - renders the buffers,
* `DisplayLog`          - the orchestrator wiring the stages together.

Modelling conventions:

* Go strings and byte buffers are lists of characters (`GoString`); the
  log data is ASCII, where Go's byte-wise operations and character-wise
  operations coincide.  `strings.Split` is `List.splitOn`,
  `strings.Join` is `List.intercalate`, Go string comparison is the
  lexicographic `goLess`.
* AWS handle objects (`*session.Session`, `*s3.S3`) are modelled by
  numeric identities, so that "the same handle object" is expressible;
  a nil pointer is `Option.none`.
* The S3 service is a parameter (`S3Store`): a listing response (pages
  of optional keys, plus the error the SDK reports if paging runs to
  the end) and a download function.
* Goroutines and channels are sequentialized: each stage is a function
  from its input stream (a list) to the pair of the values it sends on
  its output channel and the error it posts on the error channel.  A
  stage "closing its channel" is the function returning; the
  orchestrator's select is the first-error arbitration in `DisplayLog`.
* A Go runtime panic (out-of-range slice index) is `Option.none` in the
  per-line renderers and the `Failure.renderPanic` outcome above them.
* Go `time.Time` values are carried as their UTC calendar fields, so
  `.UTC()` is the identity and `Format` is zero-padded field printing.
-/

namespace Slog

/-- Go strings are modelled as lists of characters. -/
abbrev GoString := List Char

/-- Downloaded object buffers (`aws.WriteAtBuffer` contents) are byte
strings, modelled the same way as Go strings. -/
abbrev GoBuffer := List Char

/-- Build a `GoString` from a Lean string literal. -/
def goStr (s : String) : GoString := s.data

/-- Byte-wise lexicographic comparison of Go strings: `goLess a b`
models the Go expression `a < b` (so Go's `key > endAfter` is
`goLess endAfter key`). -/
def goLess : GoString → GoString → Bool
  | _, [] => false
  | [], _ :: _ => true
  | a :: as, b :: bs => if a < b then true else if b < a then false else goLess as bs

/-- A `time.Time` reduced to its UTC calendar fields.  The source only
ever formats times with layout `2006-01-02-15-04-05` after calling
`.UTC()`, so the UTC wall-clock fields are all the embedding needs. -/
structure DateTime where
  year : Nat
  month : Nat
  day : Nat
  hour : Nat
  minute : Nat
  second : Nat
deriving DecidableEq

/-- Zero-pad a digit string on the left to width `w`, as Go's reference
layout fields (`2006`, `01`, ...) do. -/
def padZero (w : Nat) (s : GoString) : GoString :=
  List.replicate (w - s.length) '0' ++ s

/-- One zero-padded decimal field of width `w`. -/
def fmtField (w n : Nat) : GoString := padZero w (Nat.toDigits 10 n)

/-- Go `t.UTC().Format("2006-01-02-15-04-05")`: the sortable
`YYYY-MM-DD-HH-MM-SS` timestamp used in log object keys. -/
def formatKeyTime (t : DateTime) : GoString :=
  fmtField 4 t.year ++ ('-' :: fmtField 2 t.month) ++ ('-' :: fmtField 2 t.day) ++
    ('-' :: fmtField 2 t.hour) ++ ('-' :: fmtField 2 t.minute) ++ ('-' :: fmtField 2 t.second)

/-- `ContentType` is an int-valued enumeration in `s3/core.go`,
controlling which fields of each log line are displayed. -/
abbrev ContentType := Int

/-- Minimal useful content (`iota` value 0). -/
def BASIC : ContentType := 0

/-- BASIC plus the request ID. -/
def REQUESTID : ContentType := 1

/-- BASIC plus the bucket the request was served from. -/
def BUCKET : ContentType := 2

/-- Bucket, request ID, operation and key values. -/
def RICH : ContentType := 3

/-- The whole log line, as originally recorded by AWS. -/
def RAW : ContentType := 4

/-- The failures the pipeline can produce.  `renderPanic` stands for a
Go runtime panic from an out-of-range slice expression; the others are
`error` values posted on the pipeline's error channel. -/
inductive Failure where
  | sessionError : Failure
  | listError : Failure
  | downloadError (bucket key : GoString) : Failure
  | unsupportedContentType (c : ContentType) : Failure
  | renderPanic : Failure
deriving DecidableEq

/-- `SlogSession` from `s3/core.go`: the parameters of one run plus the
lazily-created AWS handles (`awsSession`, `s3`), which are nil until
`activateSession` populates them.  Go distinguishes a nil
`SourceBuckets` slice from an empty one, hence the `Option`. -/
structure SlogSession where
  awsSession : Option Nat
  s3 : Option Nat
  Region : GoString
  LogBucket : GoString
  Folder : GoString
  SourceBuckets : Option (List GoString)
  StartDateTime : DateTime
  EndDateTime : DateTime
  Content : ContentType
deriving DecidableEq

/-- The ambient AWS SDK environment: `session.NewSession` may fail
depending on the process environment, and `s3.New` derives a fresh
client handle from a session handle. -/
structure AwsEnv where
  newSession : Except Failure Nat
  s3New : Nat → Nat

/-- `activateSession` from `s3/core.go`: if the session already holds an
S3 client it returns nil at once; otherwise it creates the AWS session
and S3 client, replaces a nil `SourceBuckets` with an empty slice, and
stores the new handles in the session. -/
def activateSession (env : AwsEnv) (slogSession : SlogSession) : Except Failure SlogSession :=
  if slogSession.s3.isSome then .ok slogSession
  else
    match env.newSession with
    | .error e => .error e
    | .ok awsSession =>
      let s3Client := env.s3New awsSession
      let sourceBuckets :=
        match slogSession.SourceBuckets with
        | none => some ([] : List GoString)
        | some l => some l
      .ok { slogSession with
              awsSession := some awsSession
              s3 := some s3Client
              SourceBuckets := sourceBuckets }

/-- The fields of an S3 `ListObjectsV2Input` request that the source
populates (the `Prefix` request field is called `KeyPrefix` here). -/
structure ListObjectsV2Input where
  MaxKeys : Int
  Bucket : GoString
  KeyPrefix : GoString
  StartAfter : GoString
deriving DecidableEq

/-- The S3 service, the external collaborator of the pipeline.
`listPages` is the sequence of result pages (each entry an object `Key`
pointer, which may be nil) the store returns for a listing request;
`listErr` is the error `ListObjectsV2Pages` reports when paging runs to
the end of those pages (none if listing succeeds or the callback stops
early); `download` fetches one object's bytes by bucket and key. -/
structure S3Store where
  listPages : ListObjectsV2Input → List (List (Option GoString))
  listErr : ListObjectsV2Input → Option Failure
  download : GoString → GoString → Except Failure GoBuffer

/-- Max number of keys to fetch per listing page (`s3/session.go`). -/
def maxListKeys : Int := 100

/-- The body of the `ListObjectsV2Pages` callback in
`fetchLogObjectKeys`, for the entries of a single page: skip nil keys
and the bare folder name, stop paging at the first key lexically beyond
`endAfter`, and emit every other key.  Returns the keys sent to
`keyChan` and whether the callback stopped paging. -/
def processPage (folder endAfter : GoString) : List (Option GoString) → List GoString × Bool
  | [] => ([], false)
  | none :: rest => processPage folder endAfter rest
  | some key :: rest =>
    if key = folder then processPage folder endAfter rest
    else if goLess endAfter key then ([], true)
    else
      let r := processPage folder endAfter rest
      (key :: r.1, r.2)

/-- The paging loop of `ListObjectsV2Pages`: feed each page to the
callback until it stops or the pages run out. -/
def processPages (folder endAfter : GoString) :
    List (List (Option GoString)) → List GoString × Bool
  | [] => ([], false)
  | page :: rest =>
    let r := processPage folder endAfter page
    if r.2 then (r.1, true)
    else
      let r2 := processPages folder endAfter rest
      (r.1 ++ r2.1, r2.2)

/-- `fetchLogObjectKeys` from `s3/core.go`: build the folder prefix and
the start-after / end-after cursors from the session's folder and
UTC-formatted start and end times, page through the listing, and stream
the keys inside the window.  Returns the keys sent to `keyChan` and the
error posted to `errChan` (none when the callback stopped paging early,
since the SDK then reports no error). -/
def fetchLogObjectKeys (session : SlogSession) (store : S3Store) :
    List GoString × Option Failure :=
  let keyPrefix := session.Folder ++ ['/']
  let startAfter := keyPrefix ++ formatKeyTime session.StartDateTime
  let endAfter := keyPrefix ++ formatKeyTime session.EndDateTime
  let input : ListObjectsV2Input :=
    { MaxKeys := maxListKeys
      Bucket := session.LogBucket
      KeyPrefix := keyPrefix
      StartAfter := startAfter }
  let r := processPages session.Folder endAfter (store.listPages input)
  (r.1, if r.2 then none else store.listErr input)

/-- `fetchLogObjectData` from `s3/session.go`: download each key's
object into a buffer and pass the buffer downstream; on the first
download error, post the error and stop consuming keys.  Returns the
buffers sent to `dataChan` (closing `dataChan` is the function
returning) and the error posted to `errChan`. -/
def fetchLogObjectData (session : SlogSession) (store : S3Store) :
    List GoString → List GoBuffer × Option Failure
  | [] => ([], none)
  | key :: rest =>
    match store.download session.LogBucket key with
    | .error e => ([], some e)
    | .ok awsBuff =>
      let r := fetchLogObjectData session store rest
      (awsBuff :: r.1, r.2)

/-- A Go slice expression `l[lo:hi]`.  `none` models the runtime panic
when the bounds are out of range (in Go a negative `hi`, written here
with truncating `Nat` subtraction, also fails the `lo ≤ hi` test). -/
def goSlice {α : Type} (l : List α) (lo hi : Nat) : Option (List α) :=
  if lo ≤ hi ∧ hi ≤ l.length then some ((l.take hi).drop lo) else none

/-- Go `strings.Join(l, sep)`. -/
def goJoin (l : List GoString) (sep : GoString) : GoString := List.intercalate sep l

/-- `basicContent` from `s3/session.go`: fields 2-4 plus the re-joined
middle run `parts[9 : count-7]`.  `none` models the panic on lines with
too few space-separated fields. -/
def basicContent (line : GoString) : Option GoString :=
  let parts := List.splitOn ' ' line
  let count := parts.length
  match goSlice parts 2 5, goSlice parts 9 (count - 7) with
  | some p1, some p2 => some (goJoin p1 [' '] ++ [' '] ++ goJoin p2 [' '])
  | _, _ => none

/-- `requestContent` from `s3/session.go`: the basic content plus the
request ID field `parts[6]`. -/
def requestContent (line : GoString) : Option GoString :=
  let parts := List.splitOn ' ' line
  let count := parts.length
  match goSlice parts 2 5, parts.get? 6, goSlice parts 9 (count - 7) with
  | some p1, some requestID, some p2 =>
    some (goJoin p1 [' '] ++ [' '] ++ requestID ++ [' '] ++ goJoin p2 [' '])
  | _, _, _ => none

/-- `bucketContent` from `s3/session.go`: fields 1-4 (including the
serving bucket name) plus the re-joined middle run. -/
def bucketContent (line : GoString) : Option GoString :=
  let parts := List.splitOn ' ' line
  let count := parts.length
  match goSlice parts 1 5, goSlice parts 9 (count - 7) with
  | some p1, some p2 => some (goJoin p1 [' '] ++ [' '] ++ goJoin p2 [' '])
  | _, _ => none

/-- `richContent` from `s3/session.go`: fields 1-4 plus the longer
middle run `parts[6 : count-7]` (request ID, operation and key
included). -/
def richContent (line : GoString) : Option GoString :=
  let parts := List.splitOn ' ' line
  let count := parts.length
  match goSlice parts 1 5, goSlice parts 6 (count - 7) with
  | some p1, some p2 => some (goJoin p1 [' '] ++ [' '] ++ goJoin p2 [' '])
  | _, _ => none

/-- The raw branch of `displayLogData` writes the downloaded bytes
through `fmt.Print` unchanged: `string(awsBuff.Bytes())` is the
identity here. -/
def rawContent (awsBuff : GoBuffer) : GoString := awsBuff

/-- Wrap a per-line renderer: a `none` (out-of-range slice) is a Go
runtime panic. -/
def renderWith (f : GoString → Option GoString) (line : GoString) : Except Failure GoString :=
  match f line with
  | some out => .ok out
  | none => .error .renderPanic

/-- The switch statement of `displaySelectLogData` for one line: pick
the renderer for the session's content type, or fail with the
"no implementation for content type" error. -/
def renderLine (content : ContentType) (line : GoString) : Except Failure GoString :=
  if content = BASIC then renderWith basicContent line
  else if content = REQUESTID then renderWith requestContent line
  else if content = BUCKET then renderWith bucketContent line
  else if content = RICH then renderWith richContent line
  else .error (.unsupportedContentType content)

/-- The line loop of `displaySelectLogData`: skip zero-length lines,
render the rest in order, abort on the first failure.  The result list
is the sequence of lines printed with `fmt.Println`. -/
def displaySelectLines (content : ContentType) : List GoString → Except Failure (List GoString)
  | [] => .ok []
  | line :: rest =>
    if line.length = 0 then displaySelectLines content rest
    else
      match renderLine content line with
      | .error e => .error e
      | .ok out =>
        match displaySelectLines content rest with
        | .error e => .error e
        | .ok outs => .ok (out :: outs)

/-- `displaySelectLogData` from `s3/session.go`: split the buffer into
lines on the newline character and run the line loop under the
session's content type. -/
def displaySelectLogData (session : SlogSession) (awsBuff : GoBuffer) :
    Except Failure (List GoString) :=
  displaySelectLines session.Content (List.splitOn '\n' awsBuff)

/-- The observable outcome of the display stage: the bytes written to
standard output, whether `doneChan` was closed, and the error posted to
`errChan` (the stage returns without closing `doneChan` on error). -/
structure DisplayResult where
  output : GoString
  done : Bool
  errPosted : Option Failure
deriving DecidableEq

/-- Bytes produced by printing each rendered line with `fmt.Println`
(which appends a newline). -/
def printLines (lines : List GoString) : GoString :=
  (lines.map (fun l => l ++ ['\n'])).flatten

/-- `displayLogData` from `s3/session.go`: for each buffer from
`dataChan`, either print it verbatim (RAW) or run
`displaySelectLogData`; on a failure, post the error and return without
closing `doneChan`; when the channel is exhausted, close `doneChan`. -/
def displayLogData (session : SlogSession) : List GoBuffer → DisplayResult
  | [] => { output := [], done := true, errPosted := none }
  | awsBuff :: rest =>
    if session.Content = RAW then
      let r := displayLogData session rest
      { output := rawContent awsBuff ++ r.output, done := r.done, errPosted := r.errPosted }
    else
      match displaySelectLogData session awsBuff with
      | .error e => { output := [], done := false, errPosted := some e }
      | .ok lines =>
        let r := displayLogData session rest
        { output := printLines lines ++ r.output, done := r.done, errPosted := r.errPosted }

/-- The outcome of one `DisplayLog` invocation: whether the pipeline was
started (channels allocated and the three stage goroutines launched),
the bytes written to standard output, and the error returned (`none` is
Go's nil). -/
structure PipelineRun where
  pipelineStarted : Bool
  output : GoString
  result : Option Failure
deriving DecidableEq

/-- `DisplayLog` from `s3/session.go`, sequentialized: activate the
session (returning at once, pipeline never started, if that fails),
run the three stages in their channel order, and return the first error
posted, or nil when the display stage signalled done.  The error
channel is unbuffered and a failing upstream stage blocks on it before
closing its output channel, so when one stage fails the select
deterministically observes that stage's error; when several stages fail
in one run delivery order is scheduling-dependent, and this model takes
the upstream error first. -/
def DisplayLog (env : AwsEnv) (store : S3Store) (session : SlogSession) : PipelineRun :=
  match activateSession env session with
  | .error e => { pipelineStarted := false, output := [], result := some e }
  | .ok active =>
    let keysAndErr := fetchLogObjectKeys active store
    let dataAndErr := fetchLogObjectData active store keysAndErr.1
    let d := displayLogData active dataAndErr.1
    { pipelineStarted := true
      output := d.output
      result := keysAndErr.2 <|> dataAndErr.2 <|> d.errPosted }

/-- The window predicate described by the specification for key
enumeration: keep a key iff it is not the bare folder name and is
lexically at most `endAfter` (equality included). -/
def keepKey (folder endAfter k : GoString) : Bool :=
  !(k == folder) && !(goLess endAfter k)

/-- The keys of one listing page whose `Key` pointer is not nil, in
page order. -/
def nonNilKeys : List (Option GoString) → List GoString
  | [] => []
  | none :: rest => nonNilKeys rest
  | some k :: rest => k :: nonNilKeys rest

/-- The non-nil keys of a paged listing, in listing order. -/
def listedKeys (pages : List (List (Option GoString))) : List GoString :=
  (pages.map nonNilKeys).flatten

/-- A listed key on which the enumeration callback stops paging: not
the folder name and lexically beyond `endAfter`. -/
def badKey (folder endAfter k : GoString) : Bool :=
  !(k == folder) && goLess endAfter k

/-- A content-type value the rendering switch recognizes. -/
def recognizedContent (c : ContentType) : Bool :=
  c == BASIC || c == REQUESTID || c == BUCKET || c == RICH || c == RAW

/-! ### Helper lemmas about session activation -/

lemma activateSession_s3_isSome {env : AwsEnv} {s s2 : SlogSession}
    (h : activateSession env s = .ok s2) : s2.s3.isSome := by
  unfold activateSession at h
  by_cases hs : s.s3.isSome
  · rw [if_pos hs] at h
    cases h
    exact hs
  · rw [if_neg hs] at h
    cases henv : env.newSession with
    | error e => rw [henv] at h; cases h
    | ok n => rw [henv] at h; cases h; rfl

lemma activateSession_preserves {env : AwsEnv} {s s2 : SlogSession}
    (h : activateSession env s = .ok s2) :
    s2.Region = s.Region ∧ s2.LogBucket = s.LogBucket ∧ s2.Folder = s.Folder ∧
      s2.StartDateTime = s.StartDateTime ∧ s2.EndDateTime = s.EndDateTime ∧
      s2.Content = s.Content := by
  unfold activateSession at h
  by_cases hs : s.s3.isSome
  · rw [if_pos hs] at h
    cases h
    exact ⟨rfl, rfl, rfl, rfl, rfl, rfl⟩
  · rw [if_neg hs] at h
    cases henv : env.newSession with
    | error e => rw [henv] at h; cases h
    | ok n => rw [henv] at h; cases h; exact ⟨rfl, rfl, rfl, rfl, rfl, rfl⟩

/-! ### C7: idempotent session activation -/

/-- C7.  Session activation is idempotent: once `activateSession` has
succeeded on a session, activating the resulting session again (under
any AWS environment) returns nil and hands back the very same session
value, so the AWS session handle and the S3 client handle are the same
objects both times and no new handles are constructed. -/
theorem activateSession_idempotent (env env2 : AwsEnv) (s s2 : SlogSession)
    (h : activateSession env s = .ok s2) :
    activateSession env2 s2 = .ok s2 := by
  unfold activateSession
  rw [if_pos (activateSession_s3_isSome h)]

/-- A session as the CLI layer builds it: handles still nil. -/
def c7session : SlogSession :=
  { awsSession := none
    s3 := none
    Region := goStr "us-east-1"
    LogBucket := goStr "log.example.com"
    Folder := goStr "root"
    SourceBuckets := none
    StartDateTime := ⟨2020, 3, 20, 13, 30, 0⟩
    EndDateTime := ⟨2020, 3, 20, 14, 0, 0⟩
    Content := BASIC }

/-- An AWS environment in which session construction succeeds. -/
def c7env : AwsEnv := { newSession := .ok 7, s3New := fun n => n + 1 }

/-- The session after a first successful activation under `c7env`. -/
def c7active : SlogSession :=
  { c7session with awsSession := some 7, s3 := some 8, SourceBuckets := some [] }

/-- Witness for C7: a concrete first activation succeeds, and the
second activation returns the same activated session unchanged. -/
theorem activateSession_idempotent_witness :
    activateSession c7env c7active = .ok c7active :=
  activateSession_idempotent c7env c7env c7session c7active (by rfl)

/-! ### C8: activation failure aborts before the pipeline starts -/

/-- C8.  If store-session construction fails during activation,
`DisplayLog` returns that error with the pipeline never started: no
channels are allocated, none of the three stage workers runs, and
nothing is written to the output. -/
theorem displayLog_activation_failure (env : AwsEnv) (store : S3Store)
    (s : SlogSession) (e : Failure)
    (hs3 : s.s3 = none) (henv : env.newSession = .error e) :
    DisplayLog env store s =
      { pipelineStarted := false, output := [], result := some e } := by
  have hact : activateSession env s = .error e := by
    unfold activateSession
    rw [hs3]
    simp only [Option.isSome_none, Bool.false_eq_true, if_false, henv]
  unfold DisplayLog
  rw [hact]

/-- An AWS environment in which session construction fails. -/
def c8env : AwsEnv := { newSession := .error .sessionError, s3New := fun n => n }

/-- A store that would return data if it were ever consulted. -/
def c8store : S3Store :=
  { listPages := fun _ => [[some (goStr "root/2020-03-20-13-30-00-A")]]
    listErr := fun _ => none
    download := fun _ _ => .ok (goStr "data\n") }

/-- Witness for C8: with a concrete failing environment, `DisplayLog`
returns the activation error and the pipeline is never started. -/
theorem displayLog_activation_failure_witness :
    DisplayLog c8env c8store c7session =
      { pipelineStarted := false, output := [], result := some .sessionError } :=
  displayLog_activation_failure c8env c8store c7session .sessionError rfl rfl

/-! ### C3: the raw profile copies buffers through verbatim -/

/-- C3.  When the session's content profile is RAW, the renderer writes
a downloaded buffer's bytes to the output verbatim - no line splitting
and no source-bucket filtering - so the raw output for a single object
equals the object's stored byte content byte-for-byte. -/
theorem displayLogData_raw_verbatim (s : SlogSession) (awsBuff : GoBuffer)
    (h : s.Content = RAW) :
    displayLogData s [awsBuff] =
      { output := rawContent awsBuff, done := true, errPosted := none } ∧
      rawContent awsBuff = awsBuff := by
  refine ⟨?_, rfl⟩
  unfold displayLogData
  rw [if_pos h]
  unfold displayLogData
  simp [rawContent]

/-- A raw-profile session that also carries a source-bucket filter,
which the raw path must ignore. -/
def c3session : SlogSession :=
  { c7session with
      s3 := some 3
      awsSession := some 2
      SourceBuckets := some [goStr "some-web-bucket"]
      Content := RAW }

/-- A two-line log object with a trailing newline. -/
def c3buffer : GoBuffer :=
  goStr "owner bucket one\nowner bucket two\n"

/-- Witness for C3: the concrete raw output of a single object is the
object's stored bytes, unchanged, despite the active filter list. -/
theorem displayLogData_raw_verbatim_witness :
    displayLogData c3session [c3buffer] =
      { output := rawContent c3buffer, done := true, errPosted := none } :=
  (displayLogData_raw_verbatim c3session c3buffer rfl).1

/-! ### Helper lemmas about the rendering stage -/

lemma displaySelectLines_blank (c : ContentType) (lines : List GoString)
    (h : ∀ l ∈ lines, l = []) : displaySelectLines c lines = .ok [] := by
  induction lines with
  | nil => rfl
  | cons line rest ih =>
    have hl : line = [] := h line (List.mem_cons_self _ _)
    simp only [displaySelectLines]
    rw [if_pos (by rw [hl]; rfl)]
    exact ih (fun l hm => h l (List.mem_cons_of_mem _ hm))

lemma renderLine_unrecognized (c : ContentType) (line : GoString)
    (hc : recognizedContent c = false) :
    renderLine c line = .error (.unsupportedContentType c) := by
  simp only [recognizedContent, Bool.or_eq_false_iff, beq_eq_false_iff_ne, ne_eq] at hc
  unfold renderLine
  rw [if_neg hc.1.1.1.1, if_neg hc.1.1.1.2, if_neg hc.1.1.2, if_neg hc.1.2]

lemma displaySelectLines_unsupported (c : ContentType) (lines : List GoString)
    (hc : recognizedContent c = false) (h : ∃ l ∈ lines, l ≠ []) :
    displaySelectLines c lines = .error (.unsupportedContentType c) := by
  induction lines with
  | nil => rcases h with ⟨l, hm, _⟩; cases hm
  | cons line rest ih =>
    by_cases hl : line = []
    · simp only [displaySelectLines]
      rw [if_pos (by rw [hl]; rfl)]
      apply ih
      rcases h with ⟨l, hm, hne⟩
      rcases List.mem_cons.mp hm with h1 | h2
      · exact absurd (h1.trans hl) hne
      · exact ⟨l, h2, hne⟩
    · simp only [displaySelectLines]
      rw [if_neg (by simpa [List.length_eq_zero] using hl),
        renderLine_unrecognized c line hc]

lemma displayLogData_blank (s : SlogSession) (hraw : s.Content ≠ RAW)
    (bufs : List GoBuffer)
    (hb : ∀ b ∈ bufs, ∀ l ∈ List.splitOn '\n' b, l = []) :
    displayLogData s bufs = { output := [], done := true, errPosted := none } := by
  induction bufs with
  | nil => rfl
  | cons b rest ih =>
    have hsel : displaySelectLogData s b = .ok [] :=
      displaySelectLines_blank s.Content _ (hb b (List.mem_cons_self _ _))
    simp only [displayLogData]
    rw [if_neg hraw, hsel, ih (fun b2 hm => hb b2 (List.mem_cons_of_mem _ hm))]
    rfl

lemma recognizedContent_raw : recognizedContent RAW = true := by decide

lemma displayLogData_unsupported (s : SlogSession)
    (hc : recognizedContent s.Content = false) (bufs : List GoBuffer)
    (hex : ∃ b ∈ bufs, ∃ l ∈ List.splitOn '\n' b, l ≠ []) :
    displayLogData s bufs =
      { output := [], done := false,
        errPosted := some (.unsupportedContentType s.Content) } := by
  have hraw : s.Content ≠ RAW := by
    intro h
    rw [h, recognizedContent_raw] at hc
    cases hc
  induction bufs with
  | nil => rcases hex with ⟨b, hm, _⟩; cases hm
  | cons b rest ih =>
    by_cases hblank : ∀ l ∈ List.splitOn '\n' b, l = []
    · have hsel : displaySelectLogData s b = .ok [] :=
        displaySelectLines_blank s.Content _ hblank
      have hex2 : ∃ b2 ∈ rest, ∃ l ∈ List.splitOn '\n' b2, l ≠ [] := by
        rcases hex with ⟨b2, hm, l, hl, hne⟩
        rcases List.mem_cons.mp hm with h1 | h2
        · exact absurd (hblank l (h1 ▸ hl)) hne
        · exact ⟨b2, h2, l, hl, hne⟩
      simp only [displayLogData]
      rw [if_neg hraw, hsel, ih hex2]
      simp [printLines]
    · push_neg at hblank
      have hsel : displaySelectLogData s b = .error (.unsupportedContentType s.Content) :=
        displaySelectLines_unsupported s.Content _ hc hblank
      simp only [displayLogData]
      rw [if_neg hraw, hsel]

/-! ### C1: the source-bucket filter in the line renderer -/

/-- A sixteen-field web log line whose serving bucket (field 1) is
`web-data`. -/
def c1line : GoString :=
  goStr "owner web-data 20-Mar-2020 13:30:01 192.0.2.3 requester reqid REST.GET.OBJECT key u1 u2 u3 u4 u5 u6 u7"

/-- A basic-profile session whose source-bucket filter names a bucket
that does not occur in the data. -/
def c1session : SlogSession :=
  { c7session with
      awsSession := some 4
      s3 := some 4
      SourceBuckets := some [goStr "other-bucket"]
      Content := BASIC }

/-- C1 (failing input).  The session filters for `other-bucket`, the
line's serving-bucket field is `web-data`, yet `displaySelectLogData`
renders the line anyway: the source under `src` contains no
source-bucket filtering in the line renderer, although the session
declares the filter list, the CLI documents the filtering and the
repository's own `TestReadFilter` requires zero rendered lines for a
filter value matching no bucket in the data. -/
theorem c1_filter_not_applied :
    c1session.SourceBuckets = some [goStr "other-bucket"] ∧
      (List.splitOn ' ' c1line).get? 1 = some (goStr "web-data") ∧
      displaySelectLogData c1session (c1line ++ ['\n']) =
        .ok [goStr "20-Mar-2020 13:30:01 192.0.2.3 "] := by
  refine ⟨rfl, by decide, ?_⟩
  rfl

/-! ### C10: lazy detection of an unsupported content profile -/

/-- A store holding a single log object whose content is two blank
lines. -/
def c10store : S3Store :=
  { listPages := fun _ => [[some (goStr "root/2020-03-20-13-31-00-B")]]
    listErr := fun _ => none
    download := fun _ _ => .ok (goStr "\n\n") }

/-- An already-activated session whose content profile, 201, is not one
of the five recognized values (the repository's own
`TestReadBadContentType` uses RAW + 197 = 201). -/
def c10session : SlogSession :=
  { c7session with awsSession := some 9, s3 := some 9, Content := 201 }

/-- C10.  The unsupported-content-profile error is detected lazily, per
non-empty line: for buffers that consist only of zero-length lines,
`displaySelectLogData` returns nil even under an unrecognized profile,
and a whole pipeline run over such blank data completes successfully
(`DisplayLog` returns nil) despite the invalid profile. -/
theorem unsupported_content_lazy (env : AwsEnv) (store : S3Store)
    (s s2 : SlogSession) (keys : List GoString) (bufs : List GoBuffer)
    (hc : recognizedContent s.Content = false)
    (hact : activateSession env s = .ok s2)
    (hkeys : fetchLogObjectKeys s2 store = (keys, none))
    (hdata : fetchLogObjectData s2 store keys = (bufs, none))
    (hblank : ∀ b ∈ bufs, ∀ l ∈ List.splitOn '\n' b, l = []) :
    (∀ b ∈ bufs, displaySelectLogData s2 b = .ok []) ∧
      DisplayLog env store s =
        { pipelineStarted := true, output := [], result := none } := by
  have hc2 : recognizedContent s2.Content = false := by
    rw [(activateSession_preserves hact).2.2.2.2.2]
    exact hc
  have hraw2 : s2.Content ≠ RAW := by
    intro h
    rw [h, recognizedContent_raw] at hc2
    cases hc2
  constructor
  · intro b hb
    exact displaySelectLines_blank s2.Content _ (hblank b hb)
  · unfold DisplayLog
    rw [hact]
    simp only [hkeys, hdata, displayLogData_blank s2 hraw2 bufs hblank]
    rfl

/-- Witness for C10: a run over one blank-lines-only object with the
invalid profile 201 renders nothing for that buffer and returns nil. -/
theorem unsupported_content_lazy_witness :
    DisplayLog c7env c10store c10session =
      { pipelineStarted := true, output := [], result := none } :=
  (unsupported_content_lazy c7env c10store c10session c10session
      [goStr "root/2020-03-20-13-31-00-B"] [goStr "\n\n"]
      (by decide) (by rfl) (by rfl) (by rfl) (by decide)).2

/-! ### C5: the unsupported-content-profile failure -/

/-- C5 (amended).  For a session whose content profile is unrecognized,
whenever the downloaded data contains at least one non-empty log line
the rendering stage fails with the unsupported-content-type error, the
error is posted once, and `DisplayLog` returns it (with nothing
rendered, because every line before the first non-empty one is blank). -/
theorem displayLog_unsupported_content (env : AwsEnv) (store : S3Store)
    (s s2 : SlogSession) (keys : List GoString) (bufs : List GoBuffer)
    (hc : recognizedContent s.Content = false)
    (hact : activateSession env s = .ok s2)
    (hkeys : fetchLogObjectKeys s2 store = (keys, none))
    (hdata : fetchLogObjectData s2 store keys = (bufs, none))
    (hex : ∃ b ∈ bufs, ∃ l ∈ List.splitOn '\n' b, l ≠ []) :
    DisplayLog env store s =
      { pipelineStarted := true, output := [],
        result := some (.unsupportedContentType s.Content) } := by
  have hcontent : s2.Content = s.Content := (activateSession_preserves hact).2.2.2.2.2
  have hc2 : recognizedContent s2.Content = false := by rw [hcontent]; exact hc
  unfold DisplayLog
  rw [hact]
  simp only [hkeys, hdata, displayLogData_unsupported s2 hc2 bufs hex, hcontent]
  rfl

/-- A store holding a single log object with one real line. -/
def c5store : S3Store :=
  { listPages := fun _ => [[some (goStr "root/2020-03-20-13-31-00-B")]]
    listErr := fun _ => none
    download := fun _ _ => .ok (goStr "some log line\n") }

/-- A store whose listing is empty: the requested window holds no log
objects at all. -/
def c5emptyStore : S3Store :=
  { listPages := fun _ => []
    listErr := fun _ => none
    download := fun _ _ => .error (.downloadError [] []) }

/-- C5 (counterexample to the unrestricted claim).  With the invalid
content profile 201 but an empty window, `DisplayLog` returns nil
rather than the unsupported-content-type error, so the failure is not
reported for every session with an unrecognized profile. -/
theorem displayLog_unsupported_content_cex :
    c10session.Content = 201 ∧ recognizedContent 201 = false ∧
      DisplayLog c7env c5emptyStore c10session =
        { pipelineStarted := true, output := [], result := none } :=
  ⟨rfl, by decide, rfl⟩

/-- Witness for C5: with one non-empty downloaded line and profile 201,
the pipeline aborts with the unsupported-content-type error. -/
theorem displayLog_unsupported_content_witness :
    DisplayLog c7env c5store c10session =
      { pipelineStarted := true, output := [],
        result := some (.unsupportedContentType 201) } :=
  displayLog_unsupported_content c7env c5store c10session c10session
    [goStr "root/2020-03-20-13-31-00-B"] [goStr "some log line\n"]
    (by decide) (by rfl) (by rfl) (by rfl) (by decide)

/-! ### C6: download failure short-circuits the pipeline -/

lemma fetchLogObjectData_stop (s : SlogSession) (store : S3Store)
    (pre : List GoString) (k : GoString) (e : Failure)
    (hpre : ∀ k2 ∈ pre, ∃ b, store.download s.LogBucket k2 = .ok b)
    (hk : store.download s.LogBucket k = .error e) :
    ∃ bufs, bufs.length = pre.length ∧
      ∀ rest, fetchLogObjectData s store (pre ++ k :: rest) = (bufs, some e) := by
  induction pre with
  | nil =>
    refine ⟨[], rfl, fun rest => ?_⟩
    simp only [List.nil_append, fetchLogObjectData]
    rw [hk]
  | cons p pre2 ih =>
    obtain ⟨b, hb⟩ := hpre p (List.mem_cons_self _ _)
    obtain ⟨bufs, hlen, hall⟩ := ih (fun k2 hm => hpre k2 (List.mem_cons_of_mem _ hm))
    refine ⟨b :: bufs, by simp [hlen], fun rest => ?_⟩
    simp only [List.cons_append, fetchLogObjectData, List.append_eq, hb, hall rest]

/-- C6.  If the download of one key fails, `fetchLogObjectData`
publishes that error, emits only the buffers of the keys before the
failing one, and consumes no further keys (the keys after the failing
one have no effect on its outcome); `DisplayLog` then returns that
error, and the output holds only what was rendered from the earlier
buffers - nothing from keys at or after the failure. -/
theorem displayLog_download_error (env : AwsEnv) (store : S3Store)
    (s s2 : SlogSession) (pre rest : List GoString) (k : GoString) (e : Failure)
    (hact : activateSession env s = .ok s2)
    (hkeys : fetchLogObjectKeys s2 store = (pre ++ k :: rest, none))
    (hpre : ∀ k2 ∈ pre, ∃ b, store.download s2.LogBucket k2 = .ok b)
    (hk : store.download s2.LogBucket k = .error e) :
    ∃ bufs, bufs.length = pre.length ∧
      fetchLogObjectData s2 store (pre ++ k :: rest) = (bufs, some e) ∧
      (∀ rest2, fetchLogObjectData s2 store (pre ++ k :: rest2) = (bufs, some e)) ∧
      DisplayLog env store s =
        { pipelineStarted := true
          output := (displayLogData s2 bufs).output
          result := some e } := by
  obtain ⟨bufs, hlen, hall⟩ := fetchLogObjectData_stop s2 store pre k e hpre hk
  refine ⟨bufs, hlen, hall rest, hall, ?_⟩
  unfold DisplayLog
  rw [hact]
  simp only [hkeys, hall rest]
  rfl

/-- Keys of the two log objects the C6 witness store can list. -/
def c6key1 : GoString := goStr "root/2020-03-20-13-30-00-A"

/-- The second witness key, whose download fails. -/
def c6key2 : GoString := goStr "root/2020-03-20-13-45-00-B"

/-- A store in which the first object downloads fine and the second
download fails. -/
def c6store : S3Store :=
  { listPages := fun _ => [[some c6key1, some c6key2]]
    listErr := fun _ => none
    download := fun bucket key =>
      if key = c6key1 then .ok (goStr "good line\n")
      else .error (.downloadError bucket key) }

/-- An already-activated raw-profile session for the C6 witness. -/
def c6session : SlogSession :=
  { c7session with awsSession := some 6, s3 := some 6, Content := RAW }

/-- Witness for C6: with the concrete failing store, the data stage
emits exactly the one buffer downloaded before the failure and
`DisplayLog` returns the download error. -/
theorem displayLog_download_error_witness :
    ∃ bufs : List GoBuffer, bufs.length = ([c6key1] : List GoString).length ∧
      fetchLogObjectData c6session c6store ([c6key1] ++ c6key2 :: []) = (bufs, some (.downloadError c6session.LogBucket c6key2)) ∧
      (∀ rest2, fetchLogObjectData c6session c6store ([c6key1] ++ c6key2 :: rest2) =
        (bufs, some (.downloadError c6session.LogBucket c6key2))) ∧
      DisplayLog c7env c6store c6session =
        { pipelineStarted := true
          output := (displayLogData c6session bufs).output
          result := some (.downloadError c6session.LogBucket c6key2) } :=
  displayLog_download_error c7env c6store c6session c6session [c6key1] [] c6key2
    (.downloadError c6session.LogBucket c6key2) (by rfl) (by rfl)
    (by
      intro k2 hm
      simp only [List.mem_singleton] at hm
      subst hm
      exact ⟨goStr "good line\n", rfl⟩)
    (by rfl)

/-! ### C9: totality domain of the per-line renderers -/

lemma goSlice_eq {α : Type} (l : List α) (lo hi : Nat) (h1 : lo ≤ hi)
    (h2 : hi ≤ l.length) :
    goSlice l lo hi = some (List.take (hi - lo) (List.drop lo l)) := by
  unfold goSlice
  rw [if_pos ⟨h1, h2⟩, List.drop_take]

lemma goSlice_oob {α : Type} (l : List α) (lo hi : Nat)
    (h : hi < lo ∨ l.length < hi) : goSlice l lo hi = none := by
  unfold goSlice
  rw [if_neg]
  intro hcond
  omega

/-- C9 (amended).  `basicContent`, `requestContent` and `bucketContent`
are total exactly on lines with at least 16 space-separated fields: on
any line with fewer fields the slice `parts[9 : count-7]` (or the index
`parts[6]`) is out of range and they panic.  `richContent`, however,
slices `parts[6 : count-7]`, which is in range from 13 fields on: it
panics only below 13 fields and returns a rendered line for every line
with at least 13 fields. -/
theorem renderContent_totality (line : GoString) :
    ((List.splitOn ' ' line).length < 16 →
        basicContent line = none ∧ requestContent line = none ∧
          bucketContent line = none) ∧
      (16 ≤ (List.splitOn ' ' line).length →
        (basicContent line).isSome = true ∧ (requestContent line).isSome = true ∧
          (bucketContent line).isSome = true) ∧
      ((List.splitOn ' ' line).length < 13 → richContent line = none) ∧
      (13 ≤ (List.splitOn ' ' line).length → (richContent line).isSome = true) := by
  refine ⟨fun hlt => ?_, fun hge => ?_, fun hlt => ?_, fun hge => ?_⟩
  · have h9 : goSlice (List.splitOn ' ' line) 9 ((List.splitOn ' ' line).length - 7) = none :=
      goSlice_oob _ _ _ (by omega)
    refine ⟨?_, ?_, ?_⟩
    · rcases h25 : goSlice (List.splitOn ' ' line) 2 5 with _ | p1 <;>
        simp [basicContent, h25, h9]
    · rcases h25 : goSlice (List.splitOn ' ' line) 2 5 with _ | p1 <;>
        rcases h6 : (List.splitOn ' ' line).get? 6 with _ | requestID <;>
          simp [requestContent, h25, h6, h9]
    · rcases h15 : goSlice (List.splitOn ' ' line) 1 5 with _ | p1 <;>
        simp [bucketContent, h15, h9]
  · have h25 := goSlice_eq (List.splitOn ' ' line) 2 5 (by omega) (by omega)
    have h15 := goSlice_eq (List.splitOn ' ' line) 1 5 (by omega) (by omega)
    have h9 := goSlice_eq (List.splitOn ' ' line) 9
      ((List.splitOn ' ' line).length - 7) (by omega) (by omega)
    obtain ⟨v, h6⟩ : ∃ v, (List.splitOn ' ' line)[6]? = some v :=
      ⟨_, List.getElem?_eq_getElem (by omega)⟩
    refine ⟨?_, ?_, ?_⟩
    · simp [basicContent, h25, h9]
    · simp [requestContent, h25, h6, h9]
    · simp [bucketContent, h15, h9]
  · have h6 : goSlice (List.splitOn ' ' line) 6 ((List.splitOn ' ' line).length - 7) = none :=
      goSlice_oob _ _ _ (by omega)
    rcases h15 : goSlice (List.splitOn ' ' line) 1 5 with _ | p1 <;>
      simp [richContent, h15, h6]
  · have h15 := goSlice_eq (List.splitOn ' ' line) 1 5 (by omega) (by omega)
    have h6 := goSlice_eq (List.splitOn ' ' line) 6
      ((List.splitOn ' ' line).length - 7) (by omega) (by omega)
    simp [richContent, h15, h6]

/-- A non-empty thirteen-field log line. -/
def c9line : GoString := goStr "o b t1 t2 ip q rid op key u1 u2 u3 u4"

/-- C9 (counterexample).  On a non-empty line with 13 fields - fewer
than 16 - `richContent` does not panic: `parts[6 : count-7]` is
`parts[6:6]`, which is in range, so the claim that every non-raw
renderer panics below 16 fields is false for `richContent`. -/
theorem renderContent_totality_cex :
    (List.splitOn ' ' c9line).length = 13 ∧ c9line ≠ [] ∧
      (richContent c9line).isSome = true := by decide

/-- Witness for C9: on the concrete 13-field line the three 16-field
renderers panic while `richContent` succeeds. -/
theorem renderContent_totality_witness :
    basicContent c9line = none ∧ requestContent c9line = none ∧
      bucketContent c9line = none ∧ (richContent c9line).isSome = true := by
  have h := renderContent_totality c9line
  exact ⟨(h.1 (by decide)).1, (h.1 (by decide)).2.1, (h.1 (by decide)).2.2,
    h.2.2.2 (by decide)⟩

/-! ### C4: relative lengths of the rendered profiles -/

lemma goJoin_nil : goJoin [] [' '] = [] := by
  simp [goJoin, List.intercalate]

lemma goJoin_singleton (a : GoString) : goJoin [a] [' '] = a := by
  simp [goJoin, List.intercalate, List.intersperse]

lemma goJoin_cons_cons (a b : GoString) (l : List GoString) :
    goJoin (a :: b :: l) [' '] = a ++ [' '] ++ goJoin (b :: l) [' '] := by
  simp [goJoin, List.intercalate, List.intersperse]

lemma length_goJoin_cons (a : GoString) (l : List GoString) :
    (goJoin (a :: l) [' ']).length =
      a.length + ((l.map List.length).sum + l.length) := by
  induction l generalizing a with
  | nil => rw [goJoin_singleton]; simp
  | cons b l2 ih =>
    rw [goJoin_cons_cons, List.length_append, List.length_append, ih b]
    simp only [List.map_cons, List.sum_cons, List.length_cons, List.length_nil]
    omega

lemma goJoin_length_le (l : List GoString) :
    (goJoin l [' ']).length ≤ (l.map List.length).sum + l.length := by
  cases l with
  | nil => simp [goJoin_nil]
  | cons a l2 => rw [length_goJoin_cons]; simp; omega

lemma sum_map_length_take (n : Nat) (l : List GoString) :
    ((List.take n l).map List.length).sum ≤ (l.map List.length).sum := by
  rw [List.map_take]
  exact List.Sublist.sum_le_sum (List.take_sublist _ _) (by simp)

/-- C4 (amended).  For every log line with at least 16 space-separated
fields all four selective renderers succeed, and the rendered lengths
satisfy basic < request-id, basic < bucket, bucket < rich and
rich < raw.  (The claimed request-id < bucket link is not part of this
chain: it depends on the relative widths of the bucket-name and
request-ID fields, see the counterexample.) -/
theorem renderLength_chain (line : GoString)
    (h : 16 ≤ (List.splitOn ' ' line).length) :
    ∃ b r k ri, basicContent line = some b ∧ requestContent line = some r ∧
      bucketContent line = some k ∧ richContent line = some ri ∧
      b.length < r.length ∧ b.length < k.length ∧ k.length < ri.length ∧
      ri.length < (rawContent line).length := by
  have hline : [' '].intercalate (List.splitOn ' ' line) = line :=
    List.intercalate_splitOn line ' '
  obtain ⟨a0, a1, a2, a3, a4, a5, a6, a7, a8, r9, hsp⟩ :
      ∃ a0 a1 a2 a3 a4 a5 a6 a7 a8 r9, List.splitOn ' ' line =
        a0 :: a1 :: a2 :: a3 :: a4 :: a5 :: a6 :: a7 :: a8 :: r9 := by
    have h2 := h
    generalize List.splitOn ' ' line = P at h2 ⊢
    rcases P with _|⟨a0,_|⟨a1,_|⟨a2,_|⟨a3,_|⟨a4,_|⟨a5,_|⟨a6,_|⟨a7,_|⟨a8,r9⟩⟩⟩⟩⟩⟩⟩⟩⟩ <;>
      first
        | exact ⟨_, _, _, _, _, _, _, _, _, _, rfl⟩
        | (exfalso; simp only [List.length_cons, List.length_nil] at h2; omega)
  have hPlen : (List.splitOn ' ' line).length = r9.length + 9 := by
    rw [hsp]
    simp [List.length_cons]
  have hr9 : 7 ≤ r9.length := by omega
  have h25 : goSlice (List.splitOn ' ' line) 2 5 = some [a2, a3, a4] := by
    rw [goSlice_eq _ _ _ (by omega) (by omega), hsp]
    rfl
  have h15 : goSlice (List.splitOn ' ' line) 1 5 = some [a1, a2, a3, a4] := by
    rw [goSlice_eq _ _ _ (by omega) (by omega), hsp]
    rfl
  have h96 : goSlice (List.splitOn ' ' line) 9 ((List.splitOn ' ' line).length - 7) =
      some (List.take (r9.length - 7) r9) := by
    rw [goSlice_eq _ _ _ (by omega) (by omega), hPlen, hsp,
      show r9.length + 9 - 7 - 9 = r9.length - 7 from by omega]
    rfl
  have h66 : goSlice (List.splitOn ' ' line) 6 ((List.splitOn ' ' line).length - 7) =
      some (a6 :: a7 :: a8 :: List.take (r9.length - 7) r9) := by
    rw [goSlice_eq _ _ _ (by omega) (by omega), hPlen, hsp,
      show r9.length + 9 - 7 - 6 = r9.length - 7 + 1 + 1 + 1 from by omega]
    rfl
  have h6v : (List.splitOn ' ' line).get? 6 = some a6 := by
    rw [hsp]
    rfl
  have hb : basicContent line =
      some (goJoin [a2, a3, a4] [' '] ++ [' '] ++
        goJoin (List.take (r9.length - 7) r9) [' ']) := by
    simp only [basicContent]
    rw [h25, h96]
  have hrq : requestContent line =
      some (goJoin [a2, a3, a4] [' '] ++ [' '] ++ a6 ++ [' '] ++
        goJoin (List.take (r9.length - 7) r9) [' ']) := by
    simp only [requestContent]
    rw [h25, h6v, h96]
  have hk : bucketContent line =
      some (goJoin [a1, a2, a3, a4] [' '] ++ [' '] ++
        goJoin (List.take (r9.length - 7) r9) [' ']) := by
    simp only [bucketContent]
    rw [h15, h96]
  have hri : richContent line =
      some (goJoin [a1, a2, a3, a4] [' '] ++ [' '] ++
        goJoin (a6 :: a7 :: a8 :: List.take (r9.length - 7) r9) [' ']) := by
    simp only [richContent]
    rw [h15, h66]
  have e3 := length_goJoin_cons a2 [a3, a4]
  have e4 := length_goJoin_cons a1 [a2, a3, a4]
  have eM3 := length_goJoin_cons a6 (a7 :: a8 :: List.take (r9.length - 7) r9)
  have eRaw : (rawContent line).length =
      (goJoin (a0 :: a1 :: a2 :: a3 :: a4 :: a5 :: a6 :: a7 :: a8 :: r9) [' ']).length := by
    show line.length = _
    conv_lhs => rw [← hline, hsp]
    rfl
  have eRaw2 := length_goJoin_cons a0 (a1 :: a2 :: a3 :: a4 :: a5 :: a6 :: a7 :: a8 :: r9)
  have hMle := goJoin_length_le (List.take (r9.length - 7) r9)
  have hsum := sum_map_length_take (r9.length - 7) r9
  have htlen := List.length_take_le (r9.length - 7) r9
  simp only [List.map_cons, List.sum_cons, List.length_cons, List.length_nil,
    List.map_nil, List.sum_nil] at e3 e4 eM3 eRaw2
  refine ⟨_, _, _, _, hb, hrq, hk, hri, ?_, ?_, ?_, ?_⟩ <;>
    simp only [List.length_append, List.length_cons, List.length_nil, eRaw, eRaw2] <;>
      omega

/-- A sixteen-field log line whose bucket-name field (`b`, one
character) is shorter than its request-ID field (`RRRR`). -/
def c4line : GoString := goStr "o b t1 t2 ip q RRRR op key u1 u2 u3 u4 u5 u6 u7"

/-- C4 (counterexample).  On `c4line` the bucket profile renders a
strictly shorter line than the request-id profile, refuting the claimed
strict increase along basic < request-id < bucket. -/
theorem renderLength_chain_cex :
    16 ≤ (List.splitOn ' ' c4line).length ∧
      (bucketContent c4line).isSome = true ∧
      (requestContent c4line).isSome = true ∧
      ((bucketContent c4line).getD []).length <
        ((requestContent c4line).getD []).length := by decide

/-- A sixteen-field log line with realistic field widths. -/
def c4wide : GoString :=
  goStr "ownerhash web-data date time 192.0.2.3 requester RQID9 REST.GET.OBJECT object-key u1 u2 u3 u4 u5 u6 u7"

/-- Witness for C4: the amended length chain holds on a concrete
sixteen-field line. -/
theorem renderLength_chain_witness :
    ∃ b r k ri, basicContent c4wide = some b ∧ requestContent c4wide = some r ∧
      bucketContent c4wide = some k ∧ richContent c4wide = some ri ∧
      b.length < r.length ∧ b.length < k.length ∧ k.length < ri.length ∧
      ri.length < (rawContent c4wide).length :=
  renderLength_chain c4wide (by decide)

/-! ### C2: lexical windowing of the key enumeration -/

lemma goLess_cons_iff (x y : Char) (xs ys : GoString) :
    goLess (x :: xs) (y :: ys) = true ↔ x < y ∨ (x = y ∧ goLess xs ys = true) := by
  simp only [goLess]
  by_cases h1 : x < y
  · simp [h1]
  · by_cases h2 : y < x
    · rw [if_neg h1, if_pos h2]
      simp only [Bool.false_eq_true, false_iff]
      rintro (h | ⟨rfl, _⟩)
      · exact h1 h
      · exact absurd h2 (lt_irrefl _)
    · have hxy : x = y := le_antisymm (not_lt.mp h2) (not_lt.mp h1)
      subst hxy
      rw [if_neg h1, if_neg h2]
      simp [lt_irrefl]

lemma goLess_trans {a b c : GoString} (hab : goLess a b = true)
    (hbc : goLess b c = true) : goLess a c = true := by
  induction a generalizing b c with
  | nil =>
    cases c with
    | nil =>
      cases b with
      | nil => exact absurd hab (by simp [goLess])
      | cons y ys => exact absurd hbc (by simp [goLess])
    | cons z zs => simp [goLess]
  | cons x xs ih =>
    cases b with
    | nil => exact absurd hab (by simp [goLess])
    | cons y ys =>
      cases c with
      | nil => exact absurd hbc (by simp [goLess])
      | cons z zs =>
        rw [goLess_cons_iff] at hab hbc ⊢
        rcases hab with h1 | ⟨rfl, h1⟩
        · rcases hbc with h2 | ⟨rfl, h2⟩
          · exact Or.inl (lt_trans h1 h2)
          · exact Or.inl h1
        · rcases hbc with h2 | ⟨rfl, h2⟩
          · exact Or.inl h2
          · exact Or.inr ⟨rfl, ih h1 h2⟩

lemma processPage_sorted (folder endAfter : GoString) (objs : List (Option GoString))
    (hs : List.Pairwise (fun a b => goLess a b = true) (nonNilKeys objs)) :
    processPage folder endAfter objs =
      ((nonNilKeys objs).filter (keepKey folder endAfter),
        (nonNilKeys objs).any (badKey folder endAfter)) := by
  induction objs with
  | nil => rfl
  | cons o rest ih =>
    cases o with
    | none => exact ih hs
    | some key =>
      obtain ⟨hhead, htail⟩ := List.pairwise_cons.mp hs
      show processPage folder endAfter (some key :: rest) =
        (List.filter (keepKey folder endAfter) (key :: nonNilKeys rest),
          List.any (key :: nonNilKeys rest) (badKey folder endAfter))
      simp only [processPage]
      by_cases hf : key = folder
      · rw [if_pos hf, ih htail]
        subst hf
        simp [keepKey, badKey, List.filter_cons, List.any_cons]
      · have hfb : (key == folder) = false := beq_eq_false_iff_ne.mpr hf
        by_cases hstop : goLess endAfter key = true
        · rw [if_neg hf, if_pos hstop]
          have hfil : List.filter (keepKey folder endAfter) (key :: nonNilKeys rest) = [] := by
            rw [List.filter_eq_nil_iff]
            intro b hb
            rcases List.mem_cons.mp hb with rfl | hmem
            · simp [keepKey, hstop]
            · simp [keepKey, goLess_trans hstop (hhead b hmem)]
          rw [hfil]
          simp [List.any_cons, badKey, hfb, hstop]
        · rw [if_neg hf, if_neg hstop, ih htail]
          rw [Bool.not_eq_true] at hstop
          simp [keepKey, badKey, hfb, hstop, List.filter_cons, List.any_cons]

lemma processPages_sorted (folder endAfter : GoString)
    (pages : List (List (Option GoString)))
    (hs : List.Pairwise (fun a b => goLess a b = true) (listedKeys pages)) :
    processPages folder endAfter pages =
      ((listedKeys pages).filter (keepKey folder endAfter),
        (listedKeys pages).any (badKey folder endAfter)) := by
  induction pages with
  | nil => rfl
  | cons page rest ih =>
    have hsplit : listedKeys (page :: rest) = nonNilKeys page ++ listedKeys rest := by
      simp [listedKeys]
    rw [hsplit] at hs
    obtain ⟨hs1, hs2, hcross⟩ := List.pairwise_append.mp hs
    show (let r := processPage folder endAfter page;
        if r.2 then (r.1, true)
        else let r2 := processPages folder endAfter rest; (r.1 ++ r2.1, r2.2)) = _
    rw [hsplit, processPage_sorted folder endAfter page hs1]
    by_cases hstop : (nonNilKeys page).any (badKey folder endAfter) = true
    · simp only [hstop, if_true]
      have hfil : List.filter (keepKey folder endAfter) (listedKeys rest) = [] := by
        rw [List.filter_eq_nil_iff]
        intro b hb
        obtain ⟨a, ha, hbad⟩ := List.any_eq_true.mp hstop
        have hga : goLess endAfter a = true := (Bool.and_elim_right hbad)
        simp [keepKey, goLess_trans hga (hcross a ha b hb)]
      rw [List.filter_append, List.any_append, hfil, hstop]
      simp
    · simp only [Bool.not_eq_true] at hstop
      simp only [hstop, Bool.false_eq_true, if_false]
      rw [ih hs2, List.filter_append, List.any_append, hstop]
      simp

/-- When one page contains a key beyond the window, the callback stops
paging on that page: every page after it has no effect on the result of
the enumeration loop. -/
lemma processPage_stop (folder endAfter : GoString) (objs : List (Option GoString))
    (h : ∃ k ∈ nonNilKeys objs, badKey folder endAfter k = true) :
    (processPage folder endAfter objs).2 = true := by
  induction objs with
  | nil => rcases h with ⟨k, hk, _⟩; cases hk
  | cons o rest ih =>
    cases o with
    | none => exact ih h
    | some key =>
      have h2 : ∃ k ∈ key :: nonNilKeys rest, badKey folder endAfter k = true := h
      simp only [processPage]
      by_cases hf : key = folder
      · rw [if_pos hf]
        apply ih
        rcases h2 with ⟨k, hk, hbad⟩
        rcases List.mem_cons.mp hk with rfl | hmem
        · rw [hf] at hbad
          simp [badKey] at hbad
        · exact ⟨k, hmem, hbad⟩
      · by_cases hstop : goLess endAfter key = true
        · rw [if_neg hf, if_pos hstop]
        · rw [if_neg hf, if_neg hstop]
          apply ih
          rcases h2 with ⟨k, hk, hbad⟩
          rcases List.mem_cons.mp hk with rfl | hmem
          · rw [Bool.not_eq_true] at hstop
            simp [badKey, hstop] at hbad
          · exact ⟨k, hmem, hbad⟩

lemma processPages_stop_prefix (folder endAfter : GoString)
    (pre : List (List (Option GoString))) (page : List (Option GoString))
    (hstop : ∃ k ∈ nonNilKeys page, badKey folder endAfter k = true) :
    ∀ rest, processPages folder endAfter (pre ++ page :: rest) =
      processPages folder endAfter (pre ++ [page]) := by
  have hp : (processPage folder endAfter page).2 = true :=
    processPage_stop folder endAfter page hstop
  induction pre with
  | nil =>
    intro rest
    simp only [List.nil_append, processPages, hp, if_true]
  | cons p pre2 ih =>
    intro rest
    simp only [List.cons_append, processPages]
    by_cases hq : (processPage folder endAfter p).2 = true
    · simp only [hq, if_true]
    · simp only [Bool.not_eq_true] at hq
      simp only [hq, Bool.false_eq_true, if_false, List.append_eq, ih rest]

/-- C2.  For a paged listing whose non-nil keys arrive in increasing
lexical order, `fetchLogObjectKeys` emits exactly the entries that are
non-nil, differ from the bare folder name and are lexically at most the
end-after cursor (the folder prefix followed by the end time formatted
in UTC as YYYY-MM-DD-HH-MM-SS), in listing order - a key equal to the
cursor is included, since only `key > endAfter` stops the loop.
Moreover the enumeration stops paging at the first page holding a key
beyond the cursor: the pages after it have no effect on the outcome. -/
theorem fetchLogObjectKeys_window (s : SlogSession) (store : S3Store)
    (endAfter : GoString) (input : ListObjectsV2Input)
    (hEnd : endAfter = s.Folder ++ ['/'] ++ formatKeyTime s.EndDateTime)
    (hInput : input =
      { MaxKeys := maxListKeys
        Bucket := s.LogBucket
        KeyPrefix := s.Folder ++ ['/']
        StartAfter := s.Folder ++ ['/'] ++ formatKeyTime s.StartDateTime })
    (hSorted : List.Pairwise (fun a b => goLess a b = true)
      (listedKeys (store.listPages input))) :
    (fetchLogObjectKeys s store).1 =
      (listedKeys (store.listPages input)).filter (keepKey s.Folder endAfter) ∧
    ∀ pre page rest, store.listPages input = pre ++ page :: rest →
      (∃ k ∈ nonNilKeys page, badKey s.Folder endAfter k = true) →
      fetchLogObjectKeys s store =
        fetchLogObjectKeys s { store with listPages := fun _ => pre ++ [page] } := by
  subst hEnd
  subst hInput
  constructor
  · simp only [fetchLogObjectKeys]
    rw [processPages_sorted s.Folder _ _ hSorted]
  · intro pre page rest hpages hstop
    simp only [fetchLogObjectKeys]
    rw [hpages, processPages_stop_prefix s.Folder _ pre page hstop rest]

/-- The session of the specification's windowing example: folder
`folder`, window 13:30:00 to 14:00:00 on 2020-03-20. -/
def c2session : SlogSession :=
  { c7session with
      awsSession := some 2
      s3 := some 2
      Folder := goStr "folder" }

/-- Two listing pages; the second page's keys lie at and beyond the end
of the window. -/
def c2pages : List (List (Option GoString)) :=
  [[some (goStr "folder/2020-03-20-13-30-00-X"),
    some (goStr "folder/2020-03-20-13-45-00-Y")],
   [some (goStr "folder/2020-03-20-14-00-00"),
    some (goStr "folder/2020-03-20-14-05-00-Z")]]

/-- A store serving the example pages. -/
def c2store : S3Store :=
  { listPages := fun _ => c2pages
    listErr := fun _ => none
    download := fun _ _ => .error (.downloadError [] []) }

/-- The listing request `fetchLogObjectKeys` builds for `c2session`. -/
def c2input : ListObjectsV2Input :=
  { MaxKeys := maxListKeys
    Bucket := c2session.LogBucket
    KeyPrefix := goStr "folder/"
    StartAfter := goStr "folder/2020-03-20-13-30-00" }

/-- Witness for C2: on the concrete pages the enumeration emits the two
in-window keys plus the key exactly equal to the end-after cursor
(inclusive upper bound), and drops the key beyond it. -/
theorem fetchLogObjectKeys_window_witness :
    (fetchLogObjectKeys c2session c2store).1 =
      [goStr "folder/2020-03-20-13-30-00-X",
       goStr "folder/2020-03-20-13-45-00-Y",
       goStr "folder/2020-03-20-14-00-00"] := by
  have h := fetchLogObjectKeys_window c2session c2store
    (goStr "folder/2020-03-20-14-00-00") c2input (by decide) (by decide) (by decide)
  rw [h.1]
  decide

end Slog
